import Mathlib

/-!
Shallow embedding of the two generator scripts of this repository,
generate_openapi.py and generate_sdk.py, together with theorems about
the behaviour stated in the specification.

Strings are modelled by their character lists.  Python's str.lower,
str.strip, str.isdigit and the regular-expression character class
matching are modelled over the ASCII range (every string reaching these
helpers in the scripts is ASCII text extracted from the vendor HTML).
-/

/-- Characters removed by Python str.strip() with no argument, ASCII
range: space (code 32), tab, newline, vertical tab, form feed and
carriage return (codes 9 to 13). -/
def is_py_space (c : Char) : Bool :=
  decide (c.toNat = 32 ∨ (9 ≤ c.toNat ∧ c.toNat ≤ 13))

/-- Strip characters satisfying p from both ends of a character list,
as Python str.strip does. -/
def py_strip_core (p : Char → Bool) (l : List Char) : List Char :=
  List.rdropWhile p (l.dropWhile p)

/-- Python str.strip() (whitespace, both ends). -/
def py_strip (s : String) : String := ⟨py_strip_core is_py_space s.data⟩

/-- Python str.lower(), ASCII range: Char.toLower lowers exactly the
letters A-Z, which matches Python's behaviour on ASCII text. -/
def py_lower (s : String) : String := ⟨s.data.map Char.toLower⟩

/-- ASCII decimal digit test. -/
def is_digit_09 (c : Char) : Bool := '0' ≤ c && c ≤ '9'

/-- Python str.isdigit(), ASCII model: non-empty and all characters
are decimal digits. -/
def py_isdigit (s : String) : Bool := !s.data.isEmpty && s.data.all is_digit_09

/-- Python str.startswith. -/
def py_startswith (s pre : String) : Bool := pre.data.isPrefixOf s.data

/-- Substring test on character lists, Python's `needle in hay`. -/
def is_sub_chars (needle : List Char) : List Char → Bool
  | [] => needle.isEmpty
  | c :: rest => needle.isPrefixOf (c :: rest) || is_sub_chars needle rest

/-- Python `needle in hay` for strings. -/
def py_in_str (needle hay : String) : Bool := is_sub_chars needle.data hay.data

/-- Uppercase ASCII letter, the regex class [A-Z]. -/
def is_upper_az (c : Char) : Bool := 'A' ≤ c && c ≤ 'Z'

/-- Lowercase ASCII letter, the regex class [a-z]. -/
def is_lower_az (c : Char) : Bool := 'a' ≤ c && c ≤ 'z'

/-- Length of the maximal run of uppercase letters at the head. -/
def upper_run_len : List Char → Nat
  | [] => 0
  | c :: cs => if is_upper_az c then upper_run_len cs + 1 else 0

/-- One left-to-right pass of re.sub on the pattern
([A-Z]+)([A-Z][a-z]) with replacement group1_group2 (first step of
_to_snake in generate_sdk.py).  A match at a position requires an
uppercase run of length r at least 2 followed by a lowercase letter;
greedy matching with backtracking puts the last uppercase letter of the
run into the second group.  The fuel argument is at least the length of
the list, and every step consumes at least one character, so the fuel
never runs out; it only makes the recursion structural. -/
def snake_sub1_go : Nat → List Char → List Char
  | 0, l => l
  | _ + 1, [] => []
  | fuel + 1, c :: cs =>
    let l := c :: cs
    let r := upper_run_len l
    match l.drop r with
    | d :: rest =>
        if 2 ≤ r && is_lower_az d then
          l.take (r - 1) ++ '_' :: (l.drop (r - 1)).take 1 ++ d :: snake_sub1_go fuel rest
        else
          c :: snake_sub1_go fuel cs
    | [] => c :: snake_sub1_go fuel cs

/-- re.sub for the pattern ([A-Z]+)([A-Z][a-z]), replacement
group1_group2. -/
def snake_sub1 (l : List Char) : List Char := snake_sub1_go l.length l

/-- re.sub for the pattern ([a-z\d])([A-Z]), replacement group1_group2
(second step of _to_snake); the class \d is modelled over ASCII. -/
def snake_sub2 : List Char → List Char
  | [] => []
  | [c] => [c]
  | a :: b :: rest =>
    if (is_lower_az a || is_digit_09 a) && is_upper_az b then
      a :: '_' :: b :: snake_sub2 rest
    else
      a :: snake_sub2 (b :: rest)

/-- re.sub for the pattern _+ with replacement _, collapsing every run
of underscores to a single one. -/
def collapse_underscores : List Char → List Char
  | [] => []
  | [c] => [c]
  | a :: b :: rest =>
    if a == '_' && b == '_' then collapse_underscores (b :: rest)
    else a :: collapse_underscores (b :: rest)

/-- The Python reserved keywords recognised by keyword.iskeyword. -/
def python_keywords : List String :=
  ["False", "None", "True", "and", "as", "assert", "async", "await",
   "break", "class", "continue", "def", "del", "elif", "else", "except",
   "finally", "for", "from", "global", "if", "import", "in", "is",
   "lambda", "nonlocal", "not", "or", "pass", "raise", "return", "try",
   "while", "with", "yield"]

/-- keyword.iskeyword from the Python standard library. -/
def is_python_keyword (s : String) : Bool := python_keywords.contains s

/-- The string transformation of _to_snake (generate_sdk.py) before the
keyword check: the two regex substitutions, replacement of hyphen and
space by underscore, collapsing of underscore runs, lowering, and
stripping of leading and trailing underscores. -/
def snake_core (name : String) : String :=
  let s1 := snake_sub1 name.data
  let s2 := snake_sub2 s1
  let s3 := s2.map (fun c => if c == '-' || c == ' ' then '_' else c)
  let s4 := (collapse_underscores s3).map Char.toLower
  ⟨py_strip_core (fun c => c == '_') s4⟩

/-- _to_snake from generate_sdk.py: convert camelCase and mixed strings
to snake_case and append an underscore when the result would be a
Python keyword. -/
def to_snake (name : String) : String :=
  let s := snake_core name
  if is_python_keyword s then s ++ "_" else s

/-!
Python/JSON values and dictionaries.  A parsed JSON value (the result
of json.loads) is one of bool, int, float, str, list, dict or None;
isinstance(value, bool) is tested before isinstance(value, int) in the
source, which the separate constructors reproduce.  Python floats are
modelled by rationals: only the fact that a value is a float matters to
any code under verification.  Dictionaries are ordered association
lists, matching the insertion-order semantics of Python dicts.
-/

inductive Json where
  | bool (b : Bool)
  | int (n : Int)
  | float (q : Rat)
  | str (s : String)
  | arr (l : List Json)
  | obj (kvs : List (String × Json))
  | null

/-- Lookup in a Python dict modelled as an association list (d.get(k)
or the membership test `k in d`). -/
def dict_get : List (String × α) → String → Option α
  | [], _ => none
  | (k', v) :: rest, k => if k' = k then some v else dict_get rest k

/-- Python `d[k] = v`: replace the value at an existing key in place,
otherwise append the new key at the end (insertion order). -/
def dict_set : List (String × α) → String → α → List (String × α)
  | [], k, v => [(k, v)]
  | (k', v') :: rest, k, v =>
    if k' = k then (k, v) :: rest else (k', v') :: dict_set rest k v

/-- Python `k in d`. -/
def dict_has (d : List (String × α)) (k : String) : Bool :=
  (dict_get d k).isSome

/-- Key list of a dict, in insertion order. -/
def dict_keys (d : List (String × α)) : List String := d.map Prod.fst

/-- _json_to_schema from generate_openapi.py: derive a minimal OpenAPI
schema from a JSON sample value.  The isinstance chain tests bool
before int; a list infers its items schema from its first element; a
dict maps every value recursively; any other value (None) gives the
empty schema. -/
def json_to_schema : Json → Json
  | .bool _ => .obj [("type", .str "boolean")]
  | .int _ => .obj [("type", .str "integer")]
  | .float _ => .obj [("type", .str "number")]
  | .str _ => .obj [("type", .str "string")]
  | .arr (x :: _) => .obj [("type", .str "array"), ("items", json_to_schema x)]
  | .arr [] => .obj [("type", .str "array"), ("items", .obj [])]
  | .obj kvs =>
      .obj [("type", .str "object"),
            ("properties", .obj (kvs.attach.map (fun p => (p.1.1, json_to_schema p.1.2))))]
  | .null => .obj []
termination_by j => sizeOf j
decreasing_by
  · simp_wf
    omega
  · simp_wf
    obtain ⟨⟨k, v⟩, hm⟩ := p
    have h := List.sizeOf_lt_of_mem hm
    simp at h ⊢
    omega

/-- Python truthiness of a JSON value: None, False, 0, empty string,
empty list and empty dict are falsy. -/
def py_truthy : Json → Bool
  | .bool b => b
  | .int n => n != 0
  | .float q => q != 0
  | .str s => !s.data.isEmpty
  | .arr l => !l.isEmpty
  | .obj kvs => !kvs.isEmpty
  | .null => false

/-!
Embedding of _parse_html_file (generate_openapi.py): the per-row
processing of the three classified tables.  A table row is a list of
cell strings (the HTML table extractor has already stripped each cell
and dropped blank rows); the header row has already been removed by the
caption dispatch (rows[1:]).
-/

/-- The _TYPE_MAP table of generate_openapi.py. -/
def type_map_table : List (String × String) :=
  [("string", "string"), ("number", "number"), ("number (integer)", "integer"),
   ("integer", "integer"), ("int", "integer"), ("long", "integer"),
   ("boolean", "boolean"), ("bool", "boolean"), ("array", "array"),
   ("array<object>", "array"), ("object", "object")]

/-- _map_type from generate_openapi.py: look the lowered raw type up in
_TYPE_MAP, defaulting to string. -/
def map_type (raw : String) : String :=
  (dict_get type_map_table (py_lower raw)).getD "string"

/-- An OpenAPI parameter object as built by _parse_html_file: the keys
name, in, description, required and schema (the schema holds a single
type string).  The field location carries the key named in. -/
structure Param where
  name : String
  location : String
  dscr : String
  required : Bool
  schema_type : String
deriving DecidableEq

/-- One iteration of the request-parameter loop of _parse_html_file:
rows with fewer than 6 cells are skipped, the location is stripped and
lowered and must be query, path or header, and required is true when
the optionality cell says required or the location is path. -/
def parse_param_row (row : List String) : Option Param :=
  if row.length < 6 then none
  else
    let name := py_strip (row.getD 0 "")
    let location := py_lower (py_strip (row.getD 1 ""))
    if location = "query" ∨ location = "path" ∨ location = "header" then
      let required := py_lower (py_strip (row.getD 2 "")) == "required"
      some { name := name
             location := location
             dscr := py_strip (row.getD 5 "")
             required := required || location == "path"
             schema_type := map_type (py_strip (row.getD 3 "")) }
    else none

/-- The full request-parameter list of one operation. -/
def parameters_of_rows (rows : List (List String)) : List Param :=
  rows.filterMap parse_param_row

/-- The required-field test of the request-body loop (line 220 of
generate_openapi.py): the description must contain the word required
and, once stripped and lowered, must start with it. -/
def body_desc_marks_required (d : String) : Bool :=
  py_in_str "required" (py_lower d) && py_startswith (py_lower (py_strip d)) "required"

/-- The contribution of one request-body row to the required list:
rows with fewer than 4 cells or an empty stripped name contribute
nothing; otherwise the name is appended exactly when
body_desc_marks_required holds on the description cell. -/
def body_row_required_name (row : List String) : Option String :=
  if row.length < 4 then none
  else
    let b_name := py_strip (row.getD 0 "")
    if b_name = "" then none
    else if body_desc_marks_required (row.getD 3 "") then some b_name
    else none

/-- The required list of the request-body schema of _parse_html_file. -/
def body_required_fields (rows : List (List String)) : List String :=
  rows.filterMap body_row_required_name

/-- The properties dict of the request-body schema: every row with at
least 4 cells and a non-empty stripped name sets one property keyed by
the name (a later duplicate name overwrites in place). -/
def body_properties (rows : List (List String)) : List (String × Json) :=
  rows.foldl
    (fun acc row =>
      if row.length < 4 then acc
      else
        let b_name := py_strip (row.getD 0 "")
        if b_name = "" then acc
        else
          dict_set acc b_name
            (Json.obj [("type", Json.str (map_type (py_strip (row.getD 1 "")))),
                       ("description", Json.str (py_strip (row.getD 3 "")))]))
    []

/-!
Response assembly of _parse_html_file.  A response object is the dict
built for one status code; the response map is keyed by the code
string.  Response objects are dicts from string keys to Json values.
-/

/-- The response-code loop of _parse_html_file: empty rows are skipped,
the description prefers the third cell then the second then the empty
string, and only rows whose stripped first cell is numeric produce an
entry (an empty description is replaced by No description). -/
def build_responses (rows : List (List String)) : List (String × List (String × Json)) :=
  rows.foldl
    (fun acc row =>
      match row with
      | [] => acc
      | _ =>
        let code := py_strip (row.getD 0 "")
        let d :=
          if 2 < row.length then py_strip (row.getD 2 "")
          else if 1 < row.length then py_strip (row.getD 1 "")
          else ""
        if py_isdigit code then
          dict_set acc code
            [("description", Json.str (if d = "" then "No description" else d))]
        else acc)
    []

/-- The synthesized default: if no rows produced any response, the map
becomes the single entry 200 with description Success. -/
def with_default_response (rs : List (String × List (String × Json))) :
    List (String × List (String × Json)) :=
  if rs.isEmpty then dict_set rs "200" [("description", Json.str "Success")] else rs

/-- The content object attached to the successful response: an
application/json media object whose schema is inferred from the sample
when one parsed, and the bare object type otherwise. -/
def response_content (sample : Option Json) : Json :=
  Json.obj [("application/json",
    Json.obj [("schema",
      match sample with
      | some v => json_to_schema v
      | none => Json.obj [("type", Json.str "object")])])]

/-- Lines 266 to 277 of generate_openapi.py: pick 201 when the method
is POST and a 201 entry exists, else 200, and attach the content to
that entry when it is present in the map. -/
def attach_response_schema (method : String)
    (rs : List (String × List (String × Json))) (sample : Option Json) :
    List (String × List (String × Json)) :=
  let ok_code := if method = "POST" ∧ dict_has rs "201" then "201" else "200"
  match dict_get rs ok_code with
  | some r => dict_set rs ok_code (dict_set r "content" (response_content sample))
  | none => rs

/-- The complete responses value of the record returned by
_parse_html_file, as a function of the post-header response table rows,
the parsed method and the parsed sample. -/
def parse_responses (method : String) (rows : List (List String))
    (sample : Option Json) : List (String × List (String × Json)) :=
  attach_response_schema method (with_default_response (build_responses rows)) sample

/-!
Embedding of build_openapi (generate_openapi.py): folding the parsed
per-file records into the paths mapping.  Only the fields used by the
fold are carried; the operation object built from the rest of the
record is treated as an opaque value.
-/

/-- The fields of one parsed file record that drive the paths fold. -/
structure ParsedEndpoint (α : Type) where
  api_path : String
  method : String
  op : α

/-- One iteration of the build_openapi loop: create the inner dict for
a new path, then assign at the lowered method key (lines 370 to 393 of
generate_openapi.py). -/
def add_endpoint (d : List (String × List (String × α))) (e : ParsedEndpoint α) :
    List (String × List (String × α)) :=
  dict_set d e.api_path
    (dict_set ((dict_get d e.api_path).getD []) (py_lower e.method) e.op)

/-- The paths mapping produced by folding all parsed records in file
order. -/
def build_paths (items : List (ParsedEndpoint α)) : List (String × List (String × α)) :=
  items.foldl add_endpoint []

/-- The operation stored at a path and method of the paths mapping. -/
def op_at (d : List (String × List (String × α))) (p m : String) : Option α :=
  dict_get ((dict_get d p).getD []) m

/-- The operation of the last record matching a path and lowered
method. -/
def last_match (items : List (ParsedEndpoint α)) (p m : String) : Option α :=
  ((items.filter (fun e => e.api_path = p ∧ py_lower e.method = m)).map
    (fun e => e.op)).getLast?

/-- First-occurrence deduplication of a key sequence: the key order a
Python dict ends up with after inserting the sequence left to right. -/
def first_occurrences (ks : List String) : List String :=
  ks.foldl (fun acc k => if k ∈ acc then acc else acc ++ [k]) []

/-!
Embedding of generate_sdk.py: method-name derivation, module-name
sanitisation, method-name deduplication, signature bindings and
operation collection.
-/

/-- Strip the literal braces from a path segment, re.sub on the class
[{}] with empty replacement. -/
def remove_braces (p : String) : String :=
  ⟨p.data.filter (fun c => !(c == '\x7b' || c == '\x7d'))⟩

/-- Python path.strip of the slash character. -/
def strip_slashes (path : String) : String :=
  ⟨py_strip_core (fun c => c == '/') path.data⟩

/-- Python str.split with a one-character separator: consecutive
separators produce empty parts and the empty string yields one empty
part. -/
def split_chars (sep : Char) : List Char → List (List Char)
  | [] => [[]]
  | c :: rest =>
    let r := split_chars sep rest
    if c = sep then [] :: r
    else
      match r with
      | g :: gs => (c :: g) :: gs
      | [] => [[c]]

/-- Python s.split(sep) for strings. -/
def py_split_char (s : String) (sep : Char) : List String :=
  (split_chars sep s.data).map (fun l => ⟨l⟩)

/-- _path_to_method_name from generate_sdk.py: lowered verb, then the
brace-stripped path segments, empty parts dropped, joined by
underscores and passed through _to_snake. -/
def path_to_method_name (method path : String) : String :=
  let parts := py_lower method ::
    (py_split_char (strip_slashes path) '/').map remove_braces
  let joined := "_".intercalate (parts.filter (fun p => !p.data.isEmpty))
  to_snake joined

/-- _sanitise_module_name from generate_sdk.py: _to_snake, then an
_api suffix when the name would clash with the listed stdlib and
builtin names. -/
def sanitise_module_name (tag : String) : String :=
  let name := to_snake tag
  if name ∈ ["auth", "help", "type", "input", "filter", "id", "list",
             "set", "map", "hash", "format", "open", "import"] then
    name ++ "_api"
  else name

/-- Decimal digit character, as Python string formatting writes it. -/
def digit_char (d : Nat) : Char :=
  if d = 0 then '0' else if d = 1 then '1' else if d = 2 then '2'
  else if d = 3 then '3' else if d = 4 then '4' else if d = 5 then '5'
  else if d = 6 then '6' else if d = 7 then '7' else if d = 8 then '8'
  else '9'

/-- Little-endian decimal digits of n; the fuel bounds the number of
divisions and any fuel of at least n suffices. -/
def dec_rev : Nat → Nat → List Char
  | 0, _ => []
  | fuel + 1, n => if n = 0 then [] else digit_char (n % 10) :: dec_rev fuel (n / 10)

/-- Decimal representation of a natural number, as the Python f-string
interpolation of the collision counter writes it. -/
def py_num_str (n : Nat) : String :=
  if n = 0 then "0" else ⟨(dec_rev (n + 1) n).reverse⟩

/-- The candidate name built by one iteration of the collision loop of
_generate_api_module: the f-string original_counter. -/
def suffixed_name (base : String) (k : Nat) : String :=
  base ++ "_" ++ py_num_str k

/-- The collision while-loop: starting at counter k, return the first
candidate not in seen.  The fuel bounds the number of iterations; the
loop terminates because the candidates are pairwise distinct and seen
is finite, and any fuel exceeding the number of seen names suffices. -/
def fresh_from (seen : List String) (base : String) : Nat → Nat → String
  | k, 0 => suffixed_name base k
  | k, fuel + 1 =>
    if suffixed_name base k ∈ seen then fresh_from seen base (k + 1) fuel
    else suffixed_name base k

/-- Lines 432 to 439 of generate_sdk.py: keep the derived name when it
is unseen, otherwise append _2, _3, ... until the name is free. -/
def fresh_name (seen : List String) (base : String) : String :=
  if base ∈ seen then fresh_from seen base 2 (seen.length + 1) else base

/-- The sequence of deduplicated method names generated for a list of
base names, threading the seen set through the loop. -/
def gen_names_go (seen : List String) : List String → List String
  | [] => []
  | b :: bs =>
    let n := fresh_name seen b
    n :: gen_names_go (n :: seen) bs

/-- The method names emitted for one tag module, in operation order. -/
def gen_method_names (bases : List String) : List String := gen_names_go [] bases

/-- The binding name one parameter contributes to a generated method
signature: the snake_cased name, with range remapped to range_header
for query and header parameters. -/
def binding_name (p : Param) : String :=
  if p.location == "path" then to_snake p.name
  else
    let n := to_snake p.name
    if n == "range" then "range_header" else n

/-- The parameter bindings of one generated method signature that
derive from the operation's parameter table (lines 441 to 464 of
generate_sdk.py): positional path parameters first, then the optional
query and header keywords; the synthetic body and kwargs bindings do
not derive from the table. -/
def sig_bindings (parameters : List Param) : List String :=
  (parameters.filter (fun p => p.location == "path")).map (fun p => to_snake p.name)
  ++ (parameters.filter (fun p => p.location == "query" || p.location == "header")).map
      (fun p =>
        let n := to_snake p.name
        if n == "range" then "range_header" else n)

/-- An operation object of the OpenAPI document as read by
_collect_operations, with one Option field per dictionary key the
script consults; an operation dict is falsy exactly when it has none
of these keys. -/
structure SdkOperation where
  operation_id : Option String
  summary : Option String
  tags : Option (List String)
  parameters : Option (List Param)
  request_body : Option Json
  responses : Option (List (String × List (String × Json)))

/-- Python truthiness of the operation dict: empty means no keys. -/
def op_is_empty (op : SdkOperation) : Bool :=
  op.operation_id.isNone && op.summary.isNone && op.tags.isNone &&
  op.parameters.isNone && op.request_body.isNone && op.responses.isNone

/-- A path item of the document: the optional path-level parameters
key and the method-keyed operation entries. -/
structure PathItem where
  parameters : Option (List Param)
  ops : List (String × SdkOperation)

/-- The paths mapping of the document handed to the SDK generator. -/
structure OpenApiDoc where
  paths : List (String × PathItem)

/-- The http_methods tuple of _collect_operations; the OpenAPI trace
method is not in it. -/
def http_methods : List String :=
  ["get", "post", "put", "patch", "delete", "head", "options"]

/-- Tag selection: the first entry of the tags list, with default as
the fallback for an absent key and for an empty list. -/
def tag_of_op (op : SdkOperation) : String :=
  match op.tags with
  | none => "default"
  | some [] => "default"
  | some (t :: _) => t

/-- Lookup on a Json object, Python dict.get on a media object. -/
def json_get (j : Json) (k : String) : Option Json :=
  match j with
  | .obj kvs => dict_get kvs k
  | _ => none

/-- The first media entry of a content dict: take its schema key
(defaulting to the empty schema), or keep the previous value when the
content dict is empty.  A non-dict content value cannot occur in a
document produced by generate_openapi.py. -/
def first_media_schema (content : Json) (prev : Json) : Json :=
  match content with
  | .obj [] => prev
  | .obj ((_, media) :: _) => (json_get media "schema").getD (Json.obj [])
  | _ => prev

/-- One iteration of the response-schema scan of _collect_operations
for a given code. -/
def resp_schema_step (responses : List (String × List (String × Json)))
    (code : String) (prev : Json) : Json :=
  let resp := (dict_get responses code).getD []
  let content := (dict_get resp "content").getD (Json.obj [])
  first_media_schema content prev

/-- The response-schema scan: code 200 first, then 201 unless the 200
result was truthy. -/
def resp_schema_of (responses : List (String × List (String × Json))) : Json :=
  let s1 := resp_schema_step responses "200" (Json.obj [])
  if py_truthy s1 then s1 else resp_schema_step responses "201" s1

/-- One collected operation record of _collect_operations. -/
structure CollectedOp where
  method : String
  path : String
  operation_id : String
  summary : String
  parameters : List Param
  request_body : Option Json
  response_schema : Json

/-- Append a value to the list at a key of a defaultdict(list). -/
def group_append : List (String × List β) → String → β → List (String × List β)
  | [], k, v => [(k, [v])]
  | (k', vs) :: rest, k, v =>
    if k' = k then (k', vs ++ [v]) :: rest else (k', vs) :: group_append rest k v

/-- The record built for one path, path item, method and operation. -/
def collected_of (path : String) (item : PathItem) (m : String)
    (op : SdkOperation) : CollectedOp :=
  { method := m
    path := path
    operation_id := op.operation_id.getD ""
    summary := op.summary.getD ""
    parameters := (item.parameters.getD []) ++ (op.parameters.getD [])
    request_body := op.request_body
    response_schema := resp_schema_of (op.responses.getD []) }

/-- The body of the method loop of _collect_operations: skip an absent
or falsy operation, otherwise group the collected record by tag. -/
def collect_step (path : String) (item : PathItem)
    (acc2 : List (String × List CollectedOp)) (m : String) :
    List (String × List CollectedOp) :=
  match dict_get item.ops m with
  | none => acc2
  | some op =>
    if op_is_empty op then acc2
    else group_append acc2 (tag_of_op op) (collected_of path item m op)

/-- _collect_operations from generate_sdk.py: for every path entry and
every listed HTTP method, skip an absent or falsy operation and group
the rest by tag. -/
def collect_operations (doc : OpenApiDoc) : List (String × List CollectedOp) :=
  doc.paths.foldl
    (fun acc entry => http_methods.foldl (collect_step entry.1 entry.2) acc)
    []

/-- The method names of the module generated for one tag, one def per
collected operation. -/
def module_method_names (ops : List CollectedOp) : List String :=
  gen_method_names (ops.map (fun op => path_to_method_name op.method op.path))

/-- Total number of generated methods across all tag modules. -/
def generated_method_count (doc : OpenApiDoc) : Nat :=
  ((collect_operations doc).map (fun kv => (module_method_names kv.2).length)).sum

/-- Whether a listed method key holds a non-falsy operation. -/
def op_present (item : PathItem) (m : String) : Bool :=
  match dict_get item.ops m with
  | some op => !op_is_empty op
  | none => false

/-- Number of listed-method, non-falsy operations of one path item. -/
def present_op_count (item : PathItem) : Nat :=
  (http_methods.filter (op_present item)).length

/-- Number of operations the generator can see in the document. -/
def present_ops_count (doc : OpenApiDoc) : Nat :=
  (doc.paths.map (fun e => present_op_count e.2)).sum

/-- Number of operation entries present in the document's paths
mapping, whatever their method key. -/
def all_ops_count (doc : OpenApiDoc) : Nat :=
  (doc.paths.map (fun e => e.2.ops.length)).sum

/-- Value of a little-endian list of decimal digit characters, used to
read back the strings py_num_str produces. -/
def dec_val : List Char → Nat
  | [] => 0
  | c :: rest => (c.toNat - 48) + 10 * dec_val rest

/-!
Theorems.  First the association-list and string lemmas shared by the
claims, then one theorem per claim of the specification.
-/

theorem dict_get_set_self (d : List (String × α)) (k : String) (v : α) :
    dict_get (dict_set d k v) k = some v := by
  induction d with
  | nil => simp [dict_set, dict_get]
  | cons kv rest ih =>
    obtain ⟨k', v'⟩ := kv
    by_cases h : k' = k
    · simp [dict_set, h, dict_get]
    · simp [dict_set, h, dict_get, ih]

theorem dict_get_set_ne (d : List (String × α)) (k k' : String) (v : α)
    (h : k' ≠ k) : dict_get (dict_set d k v) k' = dict_get d k' := by
  have h' : k ≠ k' := Ne.symm h
  induction d with
  | nil => simp [dict_set, dict_get, h']
  | cons kv rest ih =>
    obtain ⟨k0, v0⟩ := kv
    by_cases h0 : k0 = k
    · subst h0
      simp [dict_set, dict_get, h']
    · simp [dict_set, h0, dict_get, ih]

theorem dict_has_iff_mem_keys (d : List (String × α)) (k : String) :
    dict_has d k = true ↔ k ∈ dict_keys d := by
  induction d with
  | nil => simp [dict_has, dict_get, dict_keys]
  | cons kv rest ih =>
    obtain ⟨k', v'⟩ := kv
    by_cases h : k' = k
    · simp [dict_has, dict_get, dict_keys, h]
    · simpa [dict_has, dict_get, dict_keys, h, Ne.symm h] using ih

theorem dict_keys_set (d : List (String × α)) (k : String) (v : α) :
    dict_keys (dict_set d k v) =
      if k ∈ dict_keys d then dict_keys d else dict_keys d ++ [k] := by
  induction d with
  | nil => simp [dict_set, dict_keys]
  | cons kv rest ih =>
    obtain ⟨k', v'⟩ := kv
    by_cases h : k' = k
    · simp [dict_set, h, dict_keys]
    · have h' : ¬ k = k' := fun hh => h hh.symm
      simp only [dict_set, if_neg h, dict_keys, List.map_cons] at ih ⊢
      rw [ih]
      by_cases h2 : k ∈ List.map Prod.fst rest
      · simp [h2, List.mem_cons]
      · simp [h2, List.mem_cons, h']

/-- C8: a parameter row that yields a parameter has required = true
whenever its location is path, regardless of the optionality cell; for
the other locations required holds exactly when the stripped, lowered
optionality cell is the word required. -/
theorem param_required_rule (row : List String) (p : Param)
    (h : parse_param_row row = some p) :
    (p.location = "path" → p.required = true) ∧
    (p.location ≠ "path" →
      (p.required = true ↔ py_lower (py_strip (row.getD 2 "")) = "required")) := by
  unfold parse_param_row at h
  by_cases hlen : row.length < 6
  · simp [hlen] at h
  · rw [if_neg hlen] at h
    by_cases hloc : py_lower (py_strip (row.getD 1 "")) = "query" ∨
        py_lower (py_strip (row.getD 1 "")) = "path" ∨
        py_lower (py_strip (row.getD 1 "")) = "header"
    · rw [if_pos hloc] at h
      injection h with h
      subst h
      refine ⟨fun hp => ?_, fun hp => ?_⟩
      · have hb : (py_lower (py_strip (row.getD 1 "")) == "path") = true :=
          beq_iff_eq.mpr hp
        show (py_lower (py_strip (row.getD 2 "")) == "required" ||
          py_lower (py_strip (row.getD 1 "")) == "path") = true
        rw [hb, Bool.or_true]
      · have hb : (py_lower (py_strip (row.getD 1 "")) == "path") = false :=
          beq_eq_false_iff_ne.mpr hp
        show (py_lower (py_strip (row.getD 2 "")) == "required" ||
            py_lower (py_strip (row.getD 1 "")) == "path") = true ↔
          py_lower (py_strip (row.getD 2 "")) = "required"
        rw [hb, Bool.or_false, beq_iff_eq]
    · rw [if_neg hloc] at h
      exact absurd h (by simp)

/-- Witness for param_required_rule: the path parameter of a concrete
row whose optionality cell says optional is still required. -/
theorem param_required_rule_witness :
    Param.required { name := "id", location := "path", dscr := "d",
                     required := true, schema_type := "string" } = true :=
  (param_required_rule ["id", "Path", "optional", "String", "-", "d"]
      { name := "id", location := "path", dscr := "d",
        required := true, schema_type := "string" }
      (by decide)).1 (by decide)

/-- C5: when the method is POST and the response map has a 201 entry,
the content is attached to the 201 response and the 200 entry is left
unchanged. -/
theorem post_attaches_to_201 (rs : List (String × List (String × Json)))
    (sample : Option Json) (r201 r200 : List (String × Json))
    (h201 : dict_get rs "201" = some r201)
    (h200 : dict_get rs "200" = some r200) :
    dict_get (attach_response_schema "POST" rs sample) "201" =
      some (dict_set r201 "content" (response_content sample)) ∧
    dict_get (attach_response_schema "POST" rs sample) "200" = some r200 := by
  have hhas : dict_has rs "201" = true := by simp [dict_has, h201]
  unfold attach_response_schema
  rw [if_pos ⟨rfl, hhas⟩]
  simp only [h201]
  refine ⟨dict_get_set_self _ _ _, ?_⟩
  rw [dict_get_set_ne _ _ _ _ (by decide)]
  exact h200

/-- Witness for post_attaches_to_201 at a concrete response map. -/
theorem post_attaches_to_201_witness :
    dict_get (attach_response_schema "POST"
        [("200", [("description", Json.str "ok")]),
         ("201", [("description", Json.str "created")])] none) "201" =
      some (dict_set [("description", Json.str "created")] "content"
        (response_content none)) ∧
    dict_get (attach_response_schema "POST"
        [("200", [("description", Json.str "ok")]),
         ("201", [("description", Json.str "created")])] none) "200" =
      some [("description", Json.str "ok")] :=
  post_attaches_to_201
    [("200", [("description", Json.str "ok")]),
     ("201", [("description", Json.str "created")])] none
    [("description", Json.str "created")] [("description", Json.str "ok")] rfl rfl

/-- A fold whose step fixes the accumulator on every listed element
returns the initial accumulator. -/
theorem foldl_fixed (f : β → γ → β) (l : List γ)
    (h : ∀ x ∈ l, ∀ b, f b x = b) : ∀ acc, l.foldl f acc = acc := by
  induction l with
  | nil => intro acc; rfl
  | cons a l ih =>
    intro acc
    rw [List.foldl_cons, h a (List.mem_cons_self a l)]
    exact ih (fun x hx b => h x (List.mem_cons_of_mem a hx) b) acc

/-- C2, corrected: a post-header response table all of whose rows have
a non-numeric first cell yields the synthesized default 200 Success
entry, to which the schema attachment step then adds a content key
holding the inferred sample schema or the bare object fallback. -/
theorem nonnumeric_rows_default_response (method : String)
    (rows : List (List String)) (sample : Option Json)
    (h : ∀ row ∈ rows, row ≠ [] ∧ py_isdigit (py_strip (row.getD 0 "")) = false) :
    parse_responses method rows sample =
      [("200", [("description", Json.str "Success"),
                ("content", response_content sample)])] := by
  have hb : build_responses rows = [] := by
    unfold build_responses
    refine foldl_fixed _ rows ?_ []
    intro row hrow acc
    obtain ⟨hne, hnd⟩ := h row hrow
    match row with
    | [] => exact absurd rfl hne
    | c :: rest =>
        have hnd' : py_isdigit (py_strip c) = false := hnd
        simp [hnd']
  unfold parse_responses
  rw [hb]
  have hdf : with_default_response [] =
      [("200", [("description", Json.str "Success")])] := rfl
  rw [hdf]
  unfold attach_response_schema
  rw [if_neg (by rintro ⟨_, hc⟩; exact absurd hc (by decide))]
  rfl

/-- Witness for nonnumeric_rows_default_response: a single-row table
whose first cell is the word Note. -/
theorem nonnumeric_rows_default_response_witness :
    parse_responses "GET" [["Note", "x"]] none =
      [("200", [("description", Json.str "Success"),
                ("content", response_content none)])] :=
  nonnumeric_rows_default_response "GET" [["Note", "x"]] none
    (by intro row hrow
        simp only [List.mem_singleton] at hrow
        subst hrow
        exact ⟨by decide, by decide⟩)

/-- C2, counterexample to the claim as stated: the response map of the
parsed operation is not exactly the bare default map, because the
schema attachment step extends the synthesized 200 entry with a
content key. -/
theorem response_map_not_exactly_default :
    ¬ (parse_responses "GET" [["Note", "x"]] none =
        [("200", [("description", Json.str "Success")])]) :=
  fun h =>
    absurd (congrArg (fun d => ((dict_get d "200").getD []).length) h) (by decide)

/-- The object case of json_to_schema with the termination scaffolding
removed: every value of the dict is mapped recursively. -/
theorem json_to_schema_obj (kvs : List (String × Json)) :
    json_to_schema (Json.obj kvs) =
      Json.obj [("type", Json.str "object"),
                ("properties",
                 Json.obj (kvs.map (fun q => (q.1, json_to_schema q.2))))] := by
  have hmap : kvs.attach.map (fun p => (p.1.1, json_to_schema p.1.2)) =
      kvs.map (fun q => (q.1, json_to_schema q.2)) :=
    List.attach_map_coe kvs (fun q => (q.1, json_to_schema q.2))
  rw [json_to_schema, hmap]

/-- C9: the schema inferencer satisfies the reference equations on
every input (bool to boolean, int to integer, float to number, str to
string, non-empty list to array with the first element's items schema,
empty list to array with empty items, dict to object with every value
mapped recursively, any other value to the empty schema), and the
sample object with id, name and tags yields the expected object
schema. -/
theorem json_schema_reference :
    (∀ b, json_to_schema (Json.bool b) = Json.obj [("type", Json.str "boolean")]) ∧
    (∀ n, json_to_schema (Json.int n) = Json.obj [("type", Json.str "integer")]) ∧
    (∀ q, json_to_schema (Json.float q) = Json.obj [("type", Json.str "number")]) ∧
    (∀ s, json_to_schema (Json.str s) = Json.obj [("type", Json.str "string")]) ∧
    (∀ x l, json_to_schema (Json.arr (x :: l)) =
      Json.obj [("type", Json.str "array"), ("items", json_to_schema x)]) ∧
    (json_to_schema (Json.arr []) =
      Json.obj [("type", Json.str "array"), ("items", Json.obj [])]) ∧
    (∀ kvs, json_to_schema (Json.obj kvs) =
      Json.obj [("type", Json.str "object"),
                ("properties",
                 Json.obj (kvs.map (fun q => (q.1, json_to_schema q.2))))]) ∧
    (json_to_schema Json.null = Json.obj []) ∧
    json_to_schema (Json.obj [("id", Json.int 1), ("name", Json.str "x"),
        ("tags", Json.arr [Json.str "a"])]) =
      Json.obj [("type", Json.str "object"),
        ("properties", Json.obj
          [("id", Json.obj [("type", Json.str "integer")]),
           ("name", Json.obj [("type", Json.str "string")]),
           ("tags", Json.obj [("type", Json.str "array"),
                              ("items", Json.obj [("type", Json.str "string")])])])] := by
  refine ⟨fun b => by rw [json_to_schema], fun n => by rw [json_to_schema],
          fun q => by rw [json_to_schema], fun s => by rw [json_to_schema],
          fun x l => by rw [json_to_schema], by rw [json_to_schema],
          json_to_schema_obj, by rw [json_to_schema], ?_⟩
  rw [json_to_schema_obj]
  simp [json_to_schema]

theorem op_at_add_endpoint_match (d : List (String × List (String × α)))
    (e : ParsedEndpoint α) :
    op_at (add_endpoint d e) e.api_path (py_lower e.method) = some e.op := by
  unfold op_at add_endpoint
  rw [dict_get_set_self]
  simp only [Option.getD_some]
  rw [dict_get_set_self]

theorem op_at_add_endpoint_other (d : List (String × List (String × α)))
    (e : ParsedEndpoint α) (p m : String)
    (h : ¬ (e.api_path = p ∧ py_lower e.method = m)) :
    op_at (add_endpoint d e) p m = op_at d p m := by
  unfold op_at add_endpoint
  by_cases hp : e.api_path = p
  · subst hp
    have hm : py_lower e.method ≠ m := fun hm => h ⟨rfl, hm⟩
    rw [dict_get_set_self]
    simp only [Option.getD_some]
    rw [dict_get_set_ne _ _ _ _ (Ne.symm hm)]
  · rw [dict_get_set_ne _ _ _ _ (fun hh => hp hh.symm)]

theorem op_at_foldl (items : List (ParsedEndpoint α)) :
    ∀ (d : List (String × List (String × α))) (p m : String),
      op_at (items.foldl add_endpoint d) p m =
        (last_match items p m).or (op_at d p m) := by
  induction items with
  | nil =>
    intro d p m
    simp [last_match, Option.or]
  | cons e rest ih =>
    intro d p m
    rw [List.foldl_cons, ih]
    by_cases hm : e.api_path = p ∧ py_lower e.method = m
    · have h1 : op_at (add_endpoint d e) p m = some e.op := by
        obtain ⟨hp, hmm⟩ := hm
        subst hp
        subst hmm
        exact op_at_add_endpoint_match d e
      rw [h1]
      have h2 : last_match (e :: rest) p m = (last_match rest p m).or (some e.op) := by
        unfold last_match
        rw [List.filter_cons_of_pos (by simpa using hm), List.map_cons,
            ← List.singleton_append, List.getLast?_append]
        rfl
      rw [h2, Option.or_assoc]
      rfl
    · rw [op_at_add_endpoint_other d e p m hm]
      have h2 : last_match (e :: rest) p m = last_match rest p m := by
        unfold last_match
        rw [List.filter_cons_of_neg (by simpa using hm)]
      rw [h2]

theorem dict_keys_add_endpoint (d : List (String × List (String × α)))
    (e : ParsedEndpoint α) :
    dict_keys (add_endpoint d e) =
      if e.api_path ∈ dict_keys d then dict_keys d
      else dict_keys d ++ [e.api_path] := by
  unfold add_endpoint
  rw [dict_keys_set]

theorem dict_keys_foldl_add (items : List (ParsedEndpoint α)) :
    ∀ (d : List (String × List (String × α))),
      dict_keys (items.foldl add_endpoint d) =
        (items.map (fun e => e.api_path)).foldl
          (fun acc k => if k ∈ acc then acc else acc ++ [k]) (dict_keys d) := by
  induction items with
  | nil => intro d; rfl
  | cons e rest ih =>
    intro d
    rw [List.foldl_cons, ih, List.map_cons, List.foldl_cons, dict_keys_add_endpoint]

/-- C6: in the paths mapping assembled by build_openapi, the operation
stored at a path and method is the one of the last processed record
with that path and lowered method (silent last-wins overwrite), and the
key order of the mapping is the first-occurrence order of the distinct
paths. -/
theorem build_paths_last_wins_and_key_order (items : List (ParsedEndpoint α))
    (p m : String) :
    op_at (build_paths items) p m = last_match items p m ∧
    dict_keys (build_paths items) =
      first_occurrences (items.map (fun e => e.api_path)) := by
  constructor
  · rw [build_paths, op_at_foldl]
    have : op_at ([] : List (String × List (String × α))) p m = none := rfl
    rw [this, Option.or_none]
  · rw [build_paths, dict_keys_foldl_add]
    rfl

theorem keyword_last_not_underscore :
    ∀ k ∈ python_keywords, k.data.getLast? ≠ some '_' := by decide

theorem keyword_no_underscore : ∀ k ∈ python_keywords, '_' ∉ k.data := by decide

theorem is_python_keyword_append_underscore (s : String) :
    is_python_keyword (s ++ "_") = false := by
  unfold is_python_keyword
  cases hc : python_keywords.contains (s ++ "_") with
  | false => rfl
  | true =>
    obtain ⟨k, hk, hbeq⟩ := List.contains_iff_exists_mem_beq.mp hc
    have hek : (s ++ "_") = k := eq_of_beq hbeq
    have h1 : k.data.getLast? = some '_' := by
      rw [← hek, String.data_append]
      exact List.getLast?_concat _
    exact absurd h1 (keyword_last_not_underscore k hk)

theorem is_python_keyword_of_underscore_mem (t : String) (h : '_' ∈ t.data) :
    is_python_keyword t = false := by
  unfold is_python_keyword
  cases hc : python_keywords.contains t with
  | false => rfl
  | true =>
    obtain ⟨k, hk, hbeq⟩ := List.contains_iff_exists_mem_beq.mp hc
    have hek : t = k := eq_of_beq hbeq
    subst hek
    exact absurd h (keyword_no_underscore t hk)

theorem to_snake_not_keyword (s : String) :
    is_python_keyword (to_snake s) = false := by
  cases hk : is_python_keyword (snake_core s) with
  | true =>
    have he : to_snake s = snake_core s ++ "_" := by
      unfold to_snake
      simp only [hk, if_true]
    rw [he]
    exact is_python_keyword_append_underscore _
  | false =>
    have he : to_snake s = snake_core s := by
      unfold to_snake
      simp only [hk, Bool.false_eq_true, if_false]
    rw [he]
    exact hk

theorem sanitise_module_name_not_keyword (tag : String) :
    is_python_keyword (sanitise_module_name tag) = false := by
  by_cases h : to_snake tag ∈ ["auth", "help", "type", "input", "filter",
      "id", "list", "set", "map", "hash", "format", "open", "import"]
  · have he : sanitise_module_name tag = to_snake tag ++ "_api" := by
      unfold sanitise_module_name
      simp only [h, if_true]
    rw [he]
    apply is_python_keyword_of_underscore_mem
    rw [String.data_append]
    exact List.mem_append_right _ (by decide)
  · have he : sanitise_module_name tag = to_snake tag := by
      unfold sanitise_module_name
      simp only [h, if_false]
    rw [he]
    exact to_snake_not_keyword tag

theorem binding_name_not_keyword (p : Param) :
    is_python_keyword (binding_name p) = false := by
  by_cases h1 : (p.location == "path") = true
  · have he : binding_name p = to_snake p.name := by
      unfold binding_name
      simp only [h1, if_true]
    rw [he]
    exact to_snake_not_keyword _
  · by_cases h2 : (to_snake p.name == "range") = true
    · have he : binding_name p = "range_header" := by
        unfold binding_name
        simp only [h1, h2, Bool.false_eq_true, if_false, if_true]
      rw [he]
      decide
    · have he : binding_name p = to_snake p.name := by
        unfold binding_name
        simp only [h1, h2, Bool.false_eq_true, if_false]
      rw [he]
      exact to_snake_not_keyword _

theorem fresh_from_is_suffixed (seen : List String) (base : String) :
    ∀ fuel k, ∃ j, fresh_from seen base k fuel = suffixed_name base j := by
  intro fuel
  induction fuel with
  | zero => intro k; exact ⟨k, rfl⟩
  | succ fuel ih =>
    intro k
    unfold fresh_from
    by_cases h : suffixed_name base k ∈ seen
    · rw [if_pos h]
      exact ih (k + 1)
    · rw [if_neg h]
      exact ⟨k, rfl⟩

theorem suffixed_not_keyword (base : String) (k : Nat) :
    is_python_keyword (suffixed_name base k) = false := by
  apply is_python_keyword_of_underscore_mem
  unfold suffixed_name
  rw [String.data_append, String.data_append]
  exact List.mem_append_left _ (List.mem_append_right _ (by decide))

theorem fresh_name_not_keyword (seen : List String) (b : String)
    (h : is_python_keyword b = false) :
    is_python_keyword (fresh_name seen b) = false := by
  unfold fresh_name
  by_cases hm : b ∈ seen
  · rw [if_pos hm]
    obtain ⟨j, hj⟩ := fresh_from_is_suffixed seen b (seen.length + 1) 2
    rw [hj]
    exact suffixed_not_keyword b j
  · rw [if_neg hm]
    exact h

theorem gen_names_go_not_keyword :
    ∀ (bases seen : List String),
      (∀ b ∈ bases, is_python_keyword b = false) →
      ∀ n ∈ gen_names_go seen bases, is_python_keyword n = false := by
  intro bases
  induction bases with
  | nil =>
    intro seen h n hn
    simp [gen_names_go] at hn
  | cons b bs ih =>
    intro seen h n hn
    simp only [gen_names_go, List.mem_cons] at hn
    rcases hn with rfl | hn
    · exact fresh_name_not_keyword _ _ (h b (List.mem_cons_self b bs))
    · exact ih _ (fun x hx => h x (List.mem_cons_of_mem b hx)) n hn

/-- C10: the snake_case converter never returns a Python keyword (it
appends a trailing underscore exactly when the converted core would be
one), and in consequence no sanitised module name, no signature
binding derived from a parameter, and no generated method name built
from keyword-free bases is a Python keyword. -/
theorem snake_names_never_keyword :
    (∀ s, is_python_keyword (to_snake s) = false) ∧
    (∀ s, is_python_keyword (snake_core s) = true →
      to_snake s = snake_core s ++ "_") ∧
    (∀ tag, is_python_keyword (sanitise_module_name tag) = false) ∧
    (∀ p, is_python_keyword (binding_name p) = false) ∧
    (∀ bases, (∀ b ∈ bases, is_python_keyword b = false) →
      ∀ n ∈ gen_method_names bases, is_python_keyword n = false) := by
  refine ⟨to_snake_not_keyword, fun s h => ?_, sanitise_module_name_not_keyword,
          binding_name_not_keyword,
          fun bases h => gen_names_go_not_keyword bases [] h⟩
  unfold to_snake
  simp only [h, if_true]

/-- Witness for snake_names_never_keyword: the second name generated
for two operations with base get_x, and the keyword base class. -/
theorem snake_names_never_keyword_witness :
    is_python_keyword "get_x_2" = false ∧
    to_snake "class" = snake_core "class" ++ "_" :=
  ⟨snake_names_never_keyword.2.2.2.2 ["get_x", "get_x"] (by decide)
      "get_x_2" (by decide),
   snake_names_never_keyword.2.1 "class" (by decide)⟩

theorem digit_char_toNat (d : Nat) (h : d < 10) : (digit_char d).toNat = 48 + d := by
  interval_cases d <;> decide

theorem dec_rev_val : ∀ fuel n, n ≤ fuel → dec_val (dec_rev fuel n) = n := by
  intro fuel
  induction fuel with
  | zero =>
    intro n h
    have : n = 0 := Nat.le_zero.mp h
    subst this
    rfl
  | succ fuel ih =>
    intro n h
    by_cases hn : n = 0
    · subst hn
      rfl
    · have hstep : dec_rev (fuel + 1) n =
          if n = 0 then [] else digit_char (n % 10) :: dec_rev fuel (n / 10) := rfl
      rw [hstep, if_neg hn]
      unfold dec_val
      rw [digit_char_toNat _ (Nat.mod_lt _ (by decide)),
          ih (n / 10) (by omega)]
      omega

theorem py_num_str_val (n : Nat) : dec_val (py_num_str n).data.reverse = n := by
  by_cases hn : n = 0
  · subst hn
    decide
  · have h1 : py_num_str n = ⟨(dec_rev (n + 1) n).reverse⟩ := by
      unfold py_num_str
      rw [if_neg hn]
    rw [h1]
    show dec_val (dec_rev (n + 1) n).reverse.reverse = n
    rw [List.reverse_reverse]
    exact dec_rev_val (n + 1) n (Nat.le_succ n)

theorem suffixed_name_inj (base : String) (j k : Nat)
    (h : suffixed_name base j = suffixed_name base k) : j = k := by
  have hd := congrArg String.data h
  unfold suffixed_name at hd
  rw [String.data_append, String.data_append, String.data_append,
      String.data_append] at hd
  have hd2 := List.append_cancel_left hd
  have h4 := congrArg (fun l => dec_val l.reverse) hd2
  simp only at h4
  rw [py_num_str_val, py_num_str_val] at h4
  exact h4

theorem exists_free_suffix (seen : List String) (base : String) :
    ∃ j, 2 ≤ j ∧ j < 2 + (seen.length + 1) ∧ suffixed_name base j ∉ seen := by
  by_contra hall
  push_neg at hall
  have hsub : (List.range (seen.length + 1)).map
      (fun i => suffixed_name base (2 + i)) ⊆ seen := by
    intro x hx
    obtain ⟨i, hi, rfl⟩ := List.mem_map.mp hx
    exact hall (2 + i) (by omega)
      (by have := List.mem_range.mp hi; omega)
  have hnd : ((List.range (seen.length + 1)).map
      (fun i => suffixed_name base (2 + i))).Nodup := by
    refine List.Nodup.map ?_ (List.nodup_range _)
    intro a b hab
    have := suffixed_name_inj base (2 + a) (2 + b) hab
    omega
  have h1 : ((List.range (seen.length + 1)).map
      (fun i => suffixed_name base (2 + i))).toFinset.card = seen.length + 1 := by
    rw [List.toFinset_card_of_nodup hnd, List.length_map, List.length_range]
  have h2 : ((List.range (seen.length + 1)).map
      (fun i => suffixed_name base (2 + i))).toFinset ⊆ seen.toFinset :=
    fun x hx => List.mem_toFinset.mpr (hsub (List.mem_toFinset.mp hx))
  have h3 := Finset.card_le_card h2
  have h4 := List.toFinset_card_le seen
  omega

theorem fresh_from_first_free (seen : List String) (base : String) :
    ∀ fuel k, (∃ j, k ≤ j ∧ j < k + fuel ∧ suffixed_name base j ∉ seen) →
    ∃ j, k ≤ j ∧ fresh_from seen base k fuel = suffixed_name base j ∧
      suffixed_name base j ∉ seen ∧
      ∀ i, k ≤ i → i < j → suffixed_name base i ∈ seen := by
  intro fuel
  induction fuel with
  | zero =>
    rintro k ⟨j, hj1, hj2, -⟩
    exact absurd (hj1.trans_lt hj2) (by omega)
  | succ fuel ih =>
    intro k hex
    by_cases hk : suffixed_name base k ∈ seen
    · have hstep : fresh_from seen base k (fuel + 1) =
          if suffixed_name base k ∈ seen then fresh_from seen base (k + 1) fuel
          else suffixed_name base k := rfl
      rw [hstep, if_pos hk]
      obtain ⟨j, hj1, hj2, hj3⟩ := hex
      have hjk : j ≠ k := fun he => by subst he; exact hj3 hk
      obtain ⟨j', h1, h2, h3, h4⟩ := ih (k + 1) ⟨j, by omega, by omega, hj3⟩
      refine ⟨j', by omega, h2, h3, fun i hik hij => ?_⟩
      by_cases hik2 : i = k
      · subst hik2
        exact hk
      · exact h4 i (by omega) hij
    · have hstep : fresh_from seen base k (fuel + 1) =
          if suffixed_name base k ∈ seen then fresh_from seen base (k + 1) fuel
          else suffixed_name base k := rfl
      rw [hstep, if_neg hk]
      exact ⟨k, le_refl k, rfl, hk,
        fun i h1 h2 => absurd (h1.trans_lt h2) (by omega)⟩

theorem fresh_name_spec_mem (seen : List String) (b : String) (h : b ∈ seen) :
    ∃ k, 2 ≤ k ∧ fresh_name seen b = suffixed_name b k ∧
      suffixed_name b k ∉ seen ∧
      ∀ i, 2 ≤ i → i < k → suffixed_name b i ∈ seen := by
  have hstep : fresh_name seen b = fresh_from seen b 2 (seen.length + 1) := by
    unfold fresh_name
    rw [if_pos h]
  obtain ⟨j, hj2, heq, hfree, hbelow⟩ :=
    fresh_from_first_free seen b (seen.length + 1) 2
      (by obtain ⟨j, h1, h2, h3⟩ := exists_free_suffix seen b
          exact ⟨j, h1, by omega, h3⟩)
  exact ⟨j, hj2, hstep.trans heq, hfree, hbelow⟩

theorem fresh_name_not_mem (seen : List String) (b : String) :
    fresh_name seen b ∉ seen := by
  by_cases h : b ∈ seen
  · obtain ⟨k, -, heq, hfree, -⟩ := fresh_name_spec_mem seen b h
    rw [heq]
    exact hfree
  · unfold fresh_name
    rw [if_neg h]
    exact h

theorem gen_names_go_spec : ∀ (bs seen : List String),
    (∀ n ∈ gen_names_go seen bs, n ∉ seen) ∧ (gen_names_go seen bs).Nodup := by
  intro bs
  induction bs with
  | nil =>
    intro seen
    exact ⟨fun n hn => absurd hn (by simp [gen_names_go]), by simp [gen_names_go]⟩
  | cons b bs ih =>
    intro seen
    constructor
    · intro n hn
      simp only [gen_names_go, List.mem_cons] at hn
      rcases hn with rfl | hn
      · exact fresh_name_not_mem seen b
      · intro hmem
        exact (ih (fresh_name seen b :: seen)).1 n hn
          (List.mem_cons_of_mem _ hmem)
    · show (fresh_name seen b :: gen_names_go (fresh_name seen b :: seen) bs).Nodup
      rw [List.nodup_cons]
      refine ⟨fun hmem => ?_, (ih _).2⟩
      exact (ih (fresh_name seen b :: seen)).1 _ hmem (List.mem_cons_self _ _)

theorem gen_names_go_length :
    ∀ (bs seen : List String), (gen_names_go seen bs).length = bs.length := by
  intro bs
  induction bs with
  | nil => intro seen; rfl
  | cons b bs ih =>
    intro seen
    show (fresh_name seen b :: gen_names_go (fresh_name seen b :: seen) bs).length
      = bs.length + 1
    rw [List.length_cons, ih]

/-- C7: no two methods of one generated tag module share a name, and a
base name that collides with an already-generated name receives the
first free numeric suffix, counting _2, _3, ... upward in processing
order; the three-fold repetition of one base yields the suffixes _2
and _3 in order. -/
theorem method_name_dedup :
    (∀ ops : List CollectedOp, (module_method_names ops).Nodup) ∧
    (∀ seen b, b ∉ seen → fresh_name seen b = b) ∧
    (∀ seen b, b ∈ seen → ∃ k, 2 ≤ k ∧ fresh_name seen b = suffixed_name b k ∧
      suffixed_name b k ∉ seen ∧
      ∀ i, 2 ≤ i → i < k → suffixed_name b i ∈ seen) ∧
    gen_method_names ["f", "f", "f"] = ["f", "f_2", "f_3"] := by
  refine ⟨fun ops => (gen_names_go_spec _ []).2,
          fun seen b h => ?_, fresh_name_spec_mem, by decide⟩
  unfold fresh_name
  rw [if_neg h]

/-- Witness for method_name_dedup: a fresh base is kept, and a base
colliding with one seen name gets a suffix. -/
theorem method_name_dedup_witness :
    fresh_name [] "g" = "g" ∧
    ∃ k, 2 ≤ k ∧ fresh_name ["f"] "f" = suffixed_name "f" k ∧
      suffixed_name "f" k ∉ ["f"] ∧
      ∀ i, 2 ≤ i → i < k → suffixed_name "f" i ∈ ["f"] :=
  ⟨method_name_dedup.2.1 [] "g" (by simp),
   method_name_dedup.2.2.1 ["f"] "f" (by simp)⟩

theorem char_ofNat_toNat (n : Nat) (h : n < 55296) : (Char.ofNat n).toNat = n := by
  simp [Char.ofNat, Nat.isValidChar, h, Char.ofNatAux, Char.toNat, UInt32.toNat]

theorem char_toLower_toNat (c : Char) :
    (Char.toLower c).toNat = if c.toNat ≥ 65 ∧ c.toNat ≤ 90 then c.toNat + 32 else c.toNat := by
  unfold Char.toLower
  by_cases h : c.toNat ≥ 65 ∧ c.toNat ≤ 90
  · rw [if_pos h, if_pos h]
    exact char_ofNat_toNat _ (by omega)
  · rw [if_neg h, if_neg h]

theorem is_py_space_toLower (c : Char) :
    is_py_space (Char.toLower c) = is_py_space c := by
  unfold is_py_space
  rw [decide_eq_decide, char_toLower_toNat]
  by_cases h : c.toNat ≥ 65 ∧ c.toNat ≤ 90
  · rw [if_pos h]
    omega
  · rw [if_neg h]

theorem dropWhile_map_eq (p : Char → Bool) (f : Char → Char)
    (hpf : ∀ c, p (f c) = p c) :
    ∀ l : List Char, (l.map f).dropWhile p = (l.dropWhile p).map f := by
  intro l
  induction l with
  | nil => rfl
  | cons c rest ih =>
    rw [List.map_cons, List.dropWhile_cons, List.dropWhile_cons, hpf]
    by_cases h : p c = true
    · rw [if_pos h, if_pos h]
      exact ih
    · rw [if_neg h, if_neg h, List.map_cons]

theorem rdropWhile_map_eq (p : Char → Bool) (f : Char → Char)
    (hpf : ∀ c, p (f c) = p c) (l : List Char) :
    (l.map f).rdropWhile p = (l.rdropWhile p).map f := by
  rw [List.rdropWhile, List.rdropWhile, ← List.map_reverse,
      dropWhile_map_eq p f hpf, List.map_reverse]

theorem py_strip_core_map (p : Char → Bool) (f : Char → Char)
    (hpf : ∀ c, p (f c) = p c) (l : List Char) :
    py_strip_core p (l.map f) = (py_strip_core p l).map f := by
  unfold py_strip_core
  rw [dropWhile_map_eq p f hpf, rdropWhile_map_eq p f hpf]

theorem py_strip_lower_comm (d : String) :
    py_strip (py_lower d) = py_lower (py_strip d) := by
  unfold py_strip py_lower
  rw [py_strip_core_map _ _ is_py_space_toLower]

theorem py_strip_core_infix (p : Char → Bool) (l : List Char) :
    py_strip_core p l <:+: l := by
  unfold py_strip_core
  obtain ⟨t, ht⟩ := List.rdropWhile_prefix p (l.dropWhile p)
  obtain ⟨s, hs⟩ := List.dropWhile_suffix (l := l) p
  exact ⟨s, t, by rw [List.append_assoc, ht, hs]⟩

theorem is_sub_chars_of_infix (needle : List Char) :
    ∀ hay : List Char, needle <:+: hay → is_sub_chars needle hay = true := by
  intro hay
  induction hay with
  | nil =>
    intro h
    obtain ⟨s, t, hst⟩ := h
    rcases List.append_eq_nil.mp hst with ⟨h1, -⟩
    rcases List.append_eq_nil.mp h1 with ⟨-, h2⟩
    subst h2
    rfl
  | cons c rest ih =>
    intro h
    obtain ⟨s, t, hst⟩ := h
    show (needle.isPrefixOf (c :: rest) || is_sub_chars needle rest) = true
    cases s with
    | nil =>
      rw [List.isPrefixOf_iff_prefix.mpr ⟨t, by simpa using hst⟩, Bool.true_or]
    | cons a s' =>
      have hrest : needle <:+: rest := by
        refine ⟨s', t, ?_⟩
        have : a :: (s' ++ needle ++ t) = c :: rest := by simpa using hst
        injection this with h1 h2
      rw [ih hrest, Bool.or_true]

theorem body_marks_iff (d : String) :
    body_desc_marks_required d = true ↔
      py_startswith (py_strip (py_lower d)) "required" = true := by
  unfold body_desc_marks_required
  rw [Bool.and_eq_true]
  constructor
  · rintro ⟨-, h2⟩
    rwa [py_strip_lower_comm]
  · intro h
    refine ⟨?_, by rwa [← py_strip_lower_comm]⟩
    unfold py_in_str
    apply is_sub_chars_of_infix
    have hpre : ("required" : String).data <+: (py_strip (py_lower d)).data :=
      List.isPrefixOf_iff_prefix.mp h
    have hinf : (py_strip (py_lower d)).data <:+: (py_lower d).data :=
      py_strip_core_infix _ _
    exact hpre.isInfix.trans hinf

/-- C3: a request-body row with at least 4 cells and a non-empty name
is added to the required list exactly when its description cell,
lower-cased and stripped, starts with the word required; a description
merely containing the word elsewhere does not qualify. -/
theorem body_required_iff_startswith (row : List String)
    (h4 : 4 ≤ row.length) (hname : py_strip (row.getD 0 "") ≠ "") :
    body_row_required_name row = some (py_strip (row.getD 0 "")) ↔
      py_startswith (py_strip (py_lower (row.getD 3 ""))) "required" = true := by
  unfold body_row_required_name
  rw [if_neg (by omega), if_neg hname]
  constructor
  · intro h
    by_cases hm : body_desc_marks_required (row.getD 3 "") = true
    · exact (body_marks_iff _).mp hm
    · rw [if_neg hm] at h
      exact absurd h (by simp)
  · intro h
    rw [if_pos ((body_marks_iff _).mpr h)]

/-- Witness for body_required_iff_startswith: a row whose description
starts with the word Required is marked required. -/
theorem body_required_iff_startswith_witness :
    body_row_required_name
      ["name", "String", "application/json", "Required - the name"] = some "name" :=
  (body_required_iff_startswith
      ["name", "String", "application/json", "Required - the name"]
      (by decide) (by decide)).mpr (by decide)

theorem filter_append_perm_or (p q : α → Bool) (l : List α)
    (hdisj : ∀ a, ¬(p a = true ∧ q a = true)) :
    (l.filter p ++ l.filter q).Perm (l.filter (fun a => p a || q a)) := by
  induction l with
  | nil => simp
  | cons a l ih =>
    by_cases hp : p a = true
    · have hq : q a = false := by
        cases hq : q a
        · rfl
        · exact absurd ⟨hp, hq⟩ (hdisj a)
      rw [List.filter_cons_of_pos hp, List.filter_cons_of_neg (by simp [hq]),
          List.filter_cons_of_pos (by simp [hp]), List.cons_append]
      exact ih.cons a
    · by_cases hq : q a = true
      · rw [List.filter_cons_of_neg hp, List.filter_cons_of_pos hq,
            List.filter_cons_of_pos (by simp [hq])]
        exact List.perm_middle.trans (ih.cons a)
      · rw [List.filter_cons_of_neg hp, List.filter_cons_of_neg hq,
            List.filter_cons_of_neg (by simp [hp, hq])]
        exact ih

theorem sig_bindings_eq_maps (ps : List Param) :
    sig_bindings ps =
      (ps.filter (fun p => p.location == "path")).map binding_name ++
      (ps.filter (fun p => p.location == "query" || p.location == "header")).map
        binding_name := by
  unfold sig_bindings
  congr 1
  · apply List.map_congr_left
    intro p hp
    have hloc := (List.mem_filter.mp hp).2
    unfold binding_name
    rw [if_pos hloc]
  · apply List.map_congr_left
    intro p hp
    have hqh := (List.mem_filter.mp hp).2
    have hne : (p.location == "path") = false := by
      rcases (by simpa using hqh : p.location = "query" ∨ p.location = "header")
        with h | h
      · rw [h]
        decide
      · rw [h]
        decide
    unfold binding_name
    rw [if_neg (show ¬ (p.location == "path") = true by simp [hne])]

/-- C1, corrected: the generator applies no collision suffixing to
parameter names; the bindings of a generated signature are distinct
provided the individually snake_cased (and range-remapped) names of
the operation's parameters are pairwise distinct. -/
theorem sig_bindings_nodup_of_distinct (ps : List Param)
    (h : (ps.map binding_name).Nodup) : (sig_bindings ps).Nodup := by
  rw [sig_bindings_eq_maps]
  have hdisj : ∀ p : Param, ¬((p.location == "path") = true ∧
      (p.location == "query" || p.location == "header") = true) := by
    rintro p ⟨h1, h2⟩
    have hpath := eq_of_beq h1
    rcases (by simpa using h2 : p.location = "query" ∨ p.location = "header")
      with h3 | h3
    · exact absurd (hpath.symm.trans h3) (by decide)
    · exact absurd (hpath.symm.trans h3) (by decide)
  have hperm := (filter_append_perm_or (fun p => p.location == "path")
      (fun p => p.location == "query" || p.location == "header") ps hdisj).map
      binding_name
  rw [← List.map_append]
  exact hperm.nodup_iff.mpr (((List.filter_sublist _).map binding_name).nodup h)

/-- Witness for sig_bindings_nodup_of_distinct: a path parameter and a
query parameter with distinct snake_cased names. -/
theorem sig_bindings_nodup_of_distinct_witness :
    (sig_bindings (parameters_of_rows
        [["id", "path", "required", "String", "-", "d"],
         ["fields", "query", "optional", "String", "-", "d"]])).Nodup :=
  sig_bindings_nodup_of_distinct
    (parameters_of_rows
      [["id", "path", "required", "String", "-", "d"],
       ["fields", "query", "optional", "String", "-", "d"]])
    (by decide)

/-- C1, counterexample to the claim as stated: two parameter rows with
the distinct names someId and some_id snake-case to the same binding
some_id, and the generated signature repeats it: no collision
suffixing exists for parameter names. -/
theorem sig_bindings_collision :
    ¬ (sig_bindings (parameters_of_rows
        [["someId", "query", "optional", "String", "-", "d"],
         ["some_id", "query", "optional", "String", "-", "d"]])).Nodup := by
  decide

theorem group_append_sum_len (g : List (String × List β)) (k : String) (v : β) :
    ((group_append g k v).map (fun kv => kv.2.length)).sum =
      (g.map (fun kv => kv.2.length)).sum + 1 := by
  induction g with
  | nil => simp [group_append]
  | cons kv rest ih =>
    obtain ⟨k', vs⟩ := kv
    by_cases h : k' = k
    · simp only [group_append, if_pos h, List.map_cons, List.sum_cons,
        List.length_append, List.length_singleton]
      omega
    · simp only [group_append, if_neg h, List.map_cons, List.sum_cons, ih]
      omega

theorem collect_inner_sum (path : String) (item : PathItem) :
    ∀ (ms : List String) (acc : List (String × List CollectedOp)),
      ((ms.foldl (collect_step path item) acc).map (fun kv => kv.2.length)).sum =
        (acc.map (fun kv => kv.2.length)).sum +
          (ms.filter (op_present item)).length := by
  intro ms
  induction ms with
  | nil => intro acc; simp
  | cons m ms ih =>
    intro acc
    rw [List.foldl_cons, List.filter_cons]
    cases hg : dict_get item.ops m with
    | none =>
      have hs : collect_step path item acc m = acc := by
        unfold collect_step
        rw [hg]
      have hp : op_present item m = false := by
        unfold op_present
        rw [hg]
      rw [hs, hp, ih]
      simp
    | some op =>
      by_cases he : op_is_empty op = true
      · have hs : collect_step path item acc m = acc := by
          unfold collect_step
          rw [hg]
          show (if op_is_empty op = true then acc
            else group_append acc (tag_of_op op) (collected_of path item m op)) = acc
          rw [if_pos he]
        have hp : op_present item m = false := by
          unfold op_present
          rw [hg]
          simp [he]
        rw [hs, hp, ih]
        simp
      · have hs : collect_step path item acc m =
            group_append acc (tag_of_op op) (collected_of path item m op) := by
          unfold collect_step
          rw [hg]
          show (if op_is_empty op = true then acc
              else group_append acc (tag_of_op op) (collected_of path item m op)) =
            group_append acc (tag_of_op op) (collected_of path item m op)
          rw [if_neg he]
        have hp : op_present item m = true := by
          unfold op_present
          rw [hg]
          simp [he]
        rw [hs, hp, ih, group_append_sum_len]
        simp
        omega

theorem collect_outer_sum :
    ∀ (entries : List (String × PathItem)) (acc : List (String × List CollectedOp)),
      ((entries.foldl
          (fun acc entry => http_methods.foldl (collect_step entry.1 entry.2) acc)
          acc).map (fun kv => kv.2.length)).sum =
        (acc.map (fun kv => kv.2.length)).sum +
          (entries.map (fun e => present_op_count e.2)).sum := by
  intro entries
  induction entries with
  | nil => intro acc; simp
  | cons e rest ih =>
    intro acc
    rw [List.foldl_cons, ih, collect_inner_sum]
    show _ = (acc.map (fun kv => kv.2.length)).sum +
      (present_op_count e.2 + (rest.map (fun e => present_op_count e.2)).sum)
    unfold present_op_count
    omega

theorem module_method_names_length (ops : List CollectedOp) :
    (module_method_names ops).length = ops.length := by
  unfold module_method_names gen_method_names
  rw [gen_names_go_length, List.length_map]

/-- C4, corrected: the SDK generator drops no operation stored under
one of the seven listed method keys (get, post, put, patch, delete,
head, options) whose operation object is non-empty: the number of
generated methods across all tag modules equals the number of such
operations.  Operations under other method keys (for example trace)
and empty operation objects are skipped. -/
theorem no_listed_operation_dropped (doc : OpenApiDoc) :
    generated_method_count doc = present_ops_count doc := by
  unfold generated_method_count
  have hmap : (collect_operations doc).map
      (fun kv => (module_method_names kv.2).length) =
      (collect_operations doc).map (fun kv => kv.2.length) :=
    List.map_congr_left (fun kv _ => module_method_names_length kv.2)
  rw [hmap]
  unfold collect_operations present_ops_count
  rw [collect_outer_sum]
  simp

/-- C4, counterexample to the claim as stated: a document whose only
operation sits under the method key trace yields no generated method
at all, although the operation is present in the paths mapping. -/
theorem trace_operation_dropped :
    generated_method_count
        ⟨[("/x", ⟨none, [("trace", ⟨none, some "s", none, none, none, none⟩)]⟩)]⟩ = 0 ∧
    all_ops_count
        ⟨[("/x", ⟨none, [("trace", ⟨none, some "s", none, none, none, none⟩)]⟩)]⟩ = 1 :=
  ⟨rfl, rfl⟩

example : to_snake "someId" = "some_id" := by decide
example : to_snake "QRadarAPI" = "q_radar_api" := by decide
example : to_snake "class" = "class_" := by decide
example : to_snake "Content-Type header" = "content_type_header" := by decide
example : to_snake "HTTPSProxy" = "https_proxy" := by decide
example : to_snake "ABCDef" = "abc_def" := by decide
example : to_snake "ABCD" = "abcd" := by decide
example : to_snake "a1B2c" = "a1_b2c" := by decide
example : to_snake "XMLHttpRequest" = "xml_http_request" := by decide
example : to_snake "__weird__Name--x" = "weird_name_x" := by decide
example : to_snake "IPv4Address" = "i_pv4_address" := by decide
example : to_snake "aBCDe" = "a_bc_de" := by decide
example : to_snake "Range" = "range" := by decide
example : is_python_keyword "try" = true := by decide
example : to_snake "Try" = "try_" := by decide
example : python_keywords.length = 35 := by decide
example : to_snake "" = "" := by decide
example : body_desc_marks_required "Required. The name" = true := by decide
example : body_desc_marks_required "  required - x" = true := by decide
example : body_desc_marks_required "The field is required" = false := by decide
example : body_desc_marks_required "REQUIREDx" = true := by decide
example : body_desc_marks_required "requ ired" = false := by decide
example : py_strip "  a b\t" = "a b" := by decide
example : py_isdigit "200" = true ∧ py_isdigit "20a" = false ∧ py_isdigit "" = false := by
  refine ⟨by decide, by decide, by decide⟩
example : strip_slashes "/a//b/" = "a//b" := by decide
example : py_split_char "a//b" '/' = ["a", "", "b"] := by decide
example : py_split_char "" '/' = [""] := by decide
example : path_to_method_name "get" "/siem/offenses/{offense_id}" =
    "get_siem_offenses_offense_id" := by decide
example : gen_method_names ["f", "f", "f"] = ["f", "f_2", "f_3"] := by decide
example : fresh_name ["get_a", "get_a_2"] "get_a" = "get_a_3" := by decide
example : py_num_str 210 = "210" := by decide
example : map_type "Number (Integer)" = "integer" := by decide
example : map_type "weird" = "string" := by decide
